import Mathlib

/-!
Shallow embedding of the animation and sound plugins of the
`gamedevjam2024` repository (`src/gfx.rs`, `src/sound.rs`).

Time values (`delta_seconds`, timer durations) are modelled as rationals;
the Rust code uses `f32` seconds only through additions, resets and
order comparisons, all of which are mirrored exactly here.
Fallible operations (out-of-bounds indexing, `usize` underflow,
`(i + 1) % 0`, Bevy's panicking `Query::single`) are modelled with
`Option`, where `none` stands for a Rust panic.
-/

namespace GameDevJam

/-- AnimationType from `gfx.rs`: Once plays once and stops on the last
frame, Repeat loops indefinitely, Despawn despawns the entity on
completion. -/
inductive AnimationType where
  | Once
  | Repeat
  | Despawn
deriving DecidableEq, Repr

/-- Bevy `Timer` in `TimerMode::Once` as used by `Animation`:
`tick` accumulates elapsed time, capped at the duration once it
finishes; `finished` holds once `elapsed` reaches `duration`;
`reset` sets the elapsed time back to zero. -/
structure Timer where
  elapsed : ℚ
  duration : ℚ
deriving DecidableEq, Repr

def Timer.tick (t : Timer) (delta : ℚ) : Timer :=
  { t with elapsed := min (t.elapsed + delta) t.duration }

def Timer.finished (t : Timer) : Bool :=
  decide (t.duration ≤ t.elapsed)

def Timer.reset (t : Timer) : Timer :=
  { t with elapsed := 0 }

/-- The `Animation` component of `gfx.rs`.  The texture-atlas handle is
opaque to the logic and is modelled as a natural number. -/
structure Animation where
  index : ℕ
  atlas : ℕ
  frames : List ℕ
  timer : Timer
  animation_type : AnimationType
  finished : Bool
deriving DecidableEq, Repr

/-- `Animation::new`: no validation of `frames` is performed; the index
starts at 0, the timer at 0 elapsed, and `finished` at false. -/
def Animation.new (atlas : ℕ) (frames : List ℕ) (frame_time : ℚ)
    (animation_type : AnimationType) : Animation :=
  { index := 0
    atlas := atlas
    frames := frames
    timer := { elapsed := 0, duration := frame_time }
    animation_type := animation_type
    finished := false }

/-- `Animation::advance_frame`.  For `Repeat`, `(index + 1) % frames.len()`
panics when `frames` is empty (`% 0`): modelled as `none`.  For the
non-repeating kinds, `frames.len() - 1` underflows on an empty `frames`
(a `usize` subtraction overflow panic): also modelled as `none`. -/
def Animation.advance_frame (a : Animation) : Option Animation :=
  if a.animation_type = AnimationType.Repeat then
    if a.frames.length = 0 then none
    else some { a with index := (a.index + 1) % a.frames.length,
                       timer := a.timer.reset }
  else
    if a.frames.length = 0 then none
    else if a.index < a.frames.length - 1 then
      some { a with index := a.index + 1, timer := a.timer.reset }
    else
      some { a with finished := true }

/-- `Animation::tick`: advance the timer by `delta`; if the timer
finished, advance the frame; return the (new state and the) entry of
`frames` at the current index.  The indexing `frames[index]` panics when
out of bounds: modelled as `none`. -/
def Animation.tick (a : Animation) (delta : ℚ) : Option (Animation × ℕ) :=
  let a1 := { a with timer := a.timer.tick delta }
  let a2? := if a1.timer.finished then a1.advance_frame else some a1
  a2?.bind fun a2 => (a2.frames[a2.index]?).map fun f => (a2, f)

/-- Repeated calls of `Animation.tick`, one per element of the list of
`delta_seconds` values, returning the final state (or `none` if any call
panicked). -/
def Animation.ticks (a : Animation) : List ℚ → Option Animation
  | [] => some a
  | d :: ds => (a.tick d).bind fun p => p.1.ticks ds

/-- `AnimationResource` from `gfx.rs`: a name-keyed map of `Animation`
templates, modelled as an association list where the most recent insert
is found first (`HashMap::insert` overwrites). -/
structure AnimationResource where
  map : List (String × Animation)
deriving DecidableEq

def AnimationResource.new : AnimationResource :=
  { map := [] }

/-- `AnimationResource::insert`: registers or overwrites, no validation. -/
def AnimationResource.insert (r : AnimationResource) (name : String)
    (animation : Animation) : AnimationResource :=
  { map := (name, animation) :: r.map }

/-- `AnimationResource::get`: clone of the stored definition, if any. -/
def AnimationResource.get (r : AnimationResource) (name : String) :
    Option Animation :=
  (r.map.find? fun p => p.1 == name).map fun p => p.2

/-! Embedding of `src/sound.rs`.  Audio-source handles are opaque and
modelled as naturals.  An audio-playing entity is a record of its entity
id, its source handle, its `PlaybackMode` and whether it carries the
`NowPlaying` marker component. -/

/-- Bevy `PlaybackMode` values used by `sound.rs`: `Despawn` for
one-shot SFX, `Loop` for music. -/
inductive PlaybackMode where
  | Loop
  | Despawn
deriving DecidableEq, Repr

/-- An entity spawned by the sound systems: id, audio-source handle,
playback mode, and whether the `NowPlaying` marker is attached. -/
structure AudioEntity where
  id : ℕ
  source : ℕ
  mode : PlaybackMode
  nowPlaying : Bool
deriving DecidableEq, Repr

/-- The slice of the ECS world the sound systems touch: the audio
entities and the fresh-id counter used when spawning. -/
structure World where
  nextId : ℕ
  entities : List AudioEntity
deriving DecidableEq, Repr

/-- Spawning an audio bundle (`commands.spawn`), optionally with the
`NowPlaying` marker (`.insert(NowPlaying {})`). -/
def World.spawn (w : World) (source : ℕ) (mode : PlaybackMode)
    (marked : Bool) : World :=
  { nextId := w.nextId + 1
    entities := w.entities ++
      [{ id := w.nextId, source := source, mode := mode,
         nowPlaying := marked }] }

/-- `commands.entity(e).despawn()`. -/
def World.despawn (w : World) (i : ℕ) : World :=
  { w with entities := w.entities.filter fun e => e.id ≠ i }

/-- The result of the query `Query<Entity, With<NowPlaying>>`. -/
def World.playing (w : World) : List AudioEntity :=
  w.entities.filter fun e => e.nowPlaying

/-- Bevy `Query::single`: panics (`none`) unless the query matched
exactly one entity. -/
def querySingle (l : List AudioEntity) : Option AudioEntity :=
  match l with
  | [e] => some e
  | _ => none

/-- `SoundResource` from `sound.rs`: names to audio-source handles,
modelled as an association list (most recent insert found first). -/
structure SoundResource where
  map : List (String × ℕ)
deriving DecidableEq, Repr

def SoundResource.new : SoundResource :=
  { map := [] }

/-- `SoundResource::insert`: registers or overwrites. -/
def SoundResource.insert (r : SoundResource) (name : String)
    (handle : ℕ) : SoundResource :=
  { map := (name, handle) :: r.map }

/-- `SoundResource::get`: non-mutating lookup. -/
def SoundResource.get (r : SoundResource) (name : String) : Option ℕ :=
  (r.map.find? fun p => p.1 == name).map fun p => p.2

/-- The `play_sfx` system: for each `PlaySFX` event whose name resolves,
spawn a one-shot (`PlaybackMode::Despawn`) unmarked entity; a miss only
logs a warning.  `sfxEvents` is the list of the names carried by the
pending `PlaySFX` events, in enqueue order. -/
def play_sfx (res : SoundResource) (sfxEvents : List String)
    (w : World) : World :=
  sfxEvents.foldl
    (fun w name =>
      match res.get name with
      | some h => w.spawn h PlaybackMode.Despawn false
      | none => w)
    w

/-- The `play_music` system of `sound.rs`.  Faithful to the source: its
event reader is `EventReader<PlaySFX>`, so the names it iterates over
are those of the pending `PlaySFX` events (the `name` field of
`PlayMusic` is never read anywhere in the code).  First, if the
`NowPlaying` query is non-empty, despawn its `single()` entity (`none`
models the panic when the query holds two or more).  Then, for each
`PlaySFX` event name that resolves, spawn a looping entity and mark it
`NowPlaying`. -/
def play_music (res : SoundResource) (sfxEvents : List String)
    (w : World) : Option World :=
  (if w.playing.isEmpty then some w
   else (querySingle w.playing).map fun e => w.despawn e.id).map
    fun w1 =>
      sfxEvents.foldl
        (fun w name =>
          match res.get name with
          | some h => w.spawn h PlaybackMode.Loop true
          | none => w)
        w1

/-- The `stop_music` system: if the `NowPlaying` query is non-empty,
despawn its `single()` entity (`none` models the panic when the query
holds two or more). -/
def stop_music (w : World) : Option World :=
  if w.playing.isEmpty then some w
  else (querySingle w.playing).map fun e => w.despawn e.id

/-- One tick's worth of pending sound events: the `PlaySFX` names, the
`PlayMusic` names, and the number of `StopMusic` events. -/
structure EventBatch where
  sfx : List String
  music : List String
  stop : ℕ
deriving DecidableEq, Repr

/-- One `Update` tick of the `SoundPlugin` systems, in the order they
are listed in the plugin's tuple (`play_sfx`, `play_music`,
`stop_music`); Bevy leaves the order of an unchained tuple unspecified,
and the listed order is fixed here.  Each system runs only when its
`run_if(on_event::<..>())` condition holds, i.e. when its event kind is
pending this tick. -/
def stepBatch (res : SoundResource) (b : EventBatch) (w : World) :
    Option World :=
  let w1 := if b.sfx.isEmpty then w else play_sfx res b.sfx w
  let w2? := if b.music.isEmpty then some w1
             else play_music res b.sfx w1
  w2?.bind fun w2 => if b.stop = 0 then some w2 else stop_music w2

/-- A whole run: fold `stepBatch` over a list of event batches, `none`
as soon as any tick panics. -/
def runBatches (res : SoundResource) (w : World) :
    List EventBatch → Option World
  | [] => some w
  | b :: bs => (stepBatch res b w).bind fun w1 => runBatches res w1 bs

/-- Like `Animation.ticks`, but also collecting the frame value returned
by each call, in call order. -/
def Animation.ticksWith (a : Animation) :
    List ℚ → Option (Animation × List ℕ)
  | [] => some (a, [])
  | d :: ds =>
    (a.tick d).bind fun p =>
      (p.1.ticksWith ds).map fun q => (q.1, p.2 :: q.2)

/-! Helper lemmas. -/

theorem advance_frame_some (a : Animation)
    (h : a.index < a.frames.length) :
    ∃ a', a.advance_frame = some a' ∧ a'.index < a'.frames.length ∧
      a'.frames = a.frames ∧ a'.animation_type = a.animation_type ∧
      (a.animation_type = AnimationType.Repeat →
        a'.finished = a.finished) := by
  have hlen : a.frames.length ≠ 0 := by omega
  by_cases hty : a.animation_type = AnimationType.Repeat
  · refine ⟨{ a with
                index := (a.index + 1) % a.frames.length,
                timer := a.timer.reset },
      ?_, ?_, rfl, rfl, fun _ => rfl⟩
    · simp [Animation.advance_frame, hty, hlen]
    · show (a.index + 1) % a.frames.length < a.frames.length
      exact Nat.mod_lt _ (by omega)
  · by_cases hidx : a.index < a.frames.length - 1
    · refine ⟨{ a with index := a.index + 1, timer := a.timer.reset },
        ?_, ?_, rfl, rfl, fun hc => absurd hc hty⟩
      · simp [Animation.advance_frame, hty, hlen, hidx]
      · show a.index + 1 < a.frames.length
        omega
    · refine ⟨{ a with finished := true }, ?_, h, rfl, rfl,
        fun hc => absurd hc hty⟩
      simp [Animation.advance_frame, hty, hlen, hidx]

theorem tick_some (a : Animation) (δ : ℚ)
    (h : a.index < a.frames.length) :
    ∃ a' f, a.tick δ = some (a', f) ∧ a'.index < a'.frames.length ∧
      a'.frames = a.frames ∧ a'.animation_type = a.animation_type ∧
      (a.animation_type = AnimationType.Repeat →
        a'.finished = a.finished) := by
  have h1 : ({ a with timer := a.timer.tick δ } : Animation).index <
      ({ a with timer := a.timer.tick δ } : Animation).frames.length := h
  by_cases hf : (a.timer.tick δ).finished
  · obtain ⟨a2, hadv, hi, hfr, hty, hfin⟩ :=
      advance_frame_some { a with timer := a.timer.tick δ } h1
    refine ⟨a2, a2.frames.get ⟨a2.index, hi⟩, ?_, hi, hfr, hty, hfin⟩
    simp [Animation.tick, hf, hadv, List.getElem?_eq_getElem hi,
      List.get_eq_getElem]
  · refine ⟨{ a with timer := a.timer.tick δ },
      a.frames.get ⟨a.index, h⟩, ?_, h1, rfl, rfl, fun _ => rfl⟩
    simp [Animation.tick, hf, List.getElem?_eq_getElem h,
      List.get_eq_getElem]

theorem ticks_inv (ds : List ℚ) (a : Animation)
    (h : a.index < a.frames.length) :
    ∃ a', a.ticks ds = some a' ∧ a'.index < a'.frames.length ∧
      a'.frames = a.frames ∧ a'.animation_type = a.animation_type ∧
      (a.animation_type = AnimationType.Repeat →
        a'.finished = a.finished) := by
  induction ds generalizing a with
  | nil => exact ⟨a, rfl, h, rfl, rfl, fun _ => rfl⟩
  | cons d ds ih =>
    obtain ⟨a1, f, htick, hi, hfr, hty, hfin⟩ := tick_some a d h
    obtain ⟨a', hticks, hi', hfr', hty', hfin'⟩ := ih a1 hi
    refine ⟨a', ?_, hi', hfr' ▸ hfr, hty' ▸ hty, ?_⟩
    · simp [Animation.ticks, htick, hticks]
    · intro hrep
      rw [hfin' (hty ▸ hrep), hfin hrep]

theorem tick_fields (a : Animation) (δ : ℚ) (a' : Animation) (f : ℕ)
    (h : a.tick δ = some (a', f)) :
    a'.frames = a.frames ∧ a'.animation_type = a.animation_type ∧
      (a.animation_type = AnimationType.Repeat →
        a'.finished = a.finished) ∧
      (a'.index = a.index ∨
        (a'.index = (a.index + 1) % a.frames.length ∧
          a'.timer.elapsed = 0)) ∧
      a'.index ≤ a.index + 1 := by
  obtain ⟨i, atl, fr, t, ty, fin⟩ := a
  simp only [Animation.tick] at h
  rw [Option.bind_eq_some] at h
  obtain ⟨a2, ha2, h2⟩ := h
  rw [Option.map_eq_some'] at h2
  obtain ⟨v, hv, heq⟩ := h2
  cases heq
  simp only at ha2 ⊢
  by_cases hf : Timer.finished (t.tick δ) = true
  · rw [if_pos hf] at ha2
    simp only [Animation.advance_frame] at ha2
    split_ifs at ha2 with hty hl hl hidx
    · obtain rfl := (Option.some.injEq _ _).mp ha2
      exact ⟨rfl, rfl, fun _ => rfl, Or.inr ⟨rfl, rfl⟩, Nat.mod_le _ _⟩
    · obtain rfl := (Option.some.injEq _ _).mp ha2
      exact ⟨rfl, rfl, fun hc => absurd hc hty,
        Or.inr ⟨(Nat.mod_eq_of_lt
          (show i + 1 < fr.length by omega)).symm, rfl⟩,
        Nat.le_refl _⟩
    · obtain rfl := (Option.some.injEq _ _).mp ha2
      exact ⟨rfl, rfl, fun hc => absurd hc hty, Or.inl rfl,
        Nat.le_succ _⟩
  · rw [if_neg hf] at ha2
    obtain rfl := (Option.some.injEq _ _).mp ha2
    exact ⟨rfl, rfl, fun _ => rfl, Or.inl rfl, Nat.le_succ _⟩

theorem tick_none_of_empty (a : Animation) (hfr : a.frames = [])
    (δ : ℚ) : a.tick δ = none := by
  by_cases hf : (a.timer.tick δ).finished
  · simp [Animation.tick, hf, Animation.advance_frame, hfr]
  · simp [Animation.tick, hf, hfr]

theorem ticks_repeat_fin (ds : List ℚ) : ∀ a a' : Animation,
    a.animation_type = AnimationType.Repeat → a.ticks ds = some a' →
    a'.animation_type = AnimationType.Repeat ∧
      a'.finished = a.finished := by
  induction ds with
  | nil =>
    intro a a' hty h
    simp only [Animation.ticks, Option.some.injEq] at h
    subst h
    exact ⟨hty, rfl⟩
  | cons d ds ih =>
    intro a a' hty h
    simp only [Animation.ticks] at h
    rcases htick : a.tick d with _ | ⟨a1, f⟩
    · simp [htick] at h
    · rw [htick, Option.some_bind] at h
      obtain ⟨_, hty1, hfin1, _, _⟩ := tick_fields a d a1 f htick
      obtain ⟨hty', hfin'⟩ := ih a1 a' (hty1.trans hty) h
      exact ⟨hty', by rw [hfin', hfin1 hty]⟩

theorem tick_stuck3 (a : Animation) (x y z : ℕ)
    (hfr : a.frames = [x, y, z]) (hi : a.index = 2)
    (hty : a.animation_type = AnimationType.Once)
    (hfin : a.finished = true) (δ : ℚ) :
    a.tick δ = some ({ a with timer := a.timer.tick δ }, z) := by
  obtain ⟨i, atl, fr, t, ty, fin⟩ := a
  simp only at hfr hi hty hfin
  subst hfr hi hty hfin
  by_cases hf : (t.tick δ).finished
  · simp [Animation.tick, Animation.advance_frame, hf]
  · simp [Animation.tick, hf]

theorem ticksWith_stuck3 (ds : List ℚ) (a : Animation) (x y z : ℕ)
    (hfr : a.frames = [x, y, z]) (hi : a.index = 2)
    (hty : a.animation_type = AnimationType.Once)
    (hfin : a.finished = true) :
    ∃ a', a.ticksWith ds = some (a', List.replicate ds.length z) ∧
      a'.frames = [x, y, z] ∧ a'.index = 2 ∧
      a'.animation_type = AnimationType.Once ∧ a'.finished = true := by
  induction ds generalizing a with
  | nil => exact ⟨a, by simp [Animation.ticksWith], hfr, hi, hty, hfin⟩
  | cons d ds ih =>
    have htick := tick_stuck3 a x y z hfr hi hty hfin d
    obtain ⟨a', hticks, h1, h2, h3, h4⟩ :=
      ih { a with timer := a.timer.tick d } hfr hi hty hfin
    exact ⟨a', by simp [Animation.ticksWith, htick, hticks,
      List.replicate_succ], h1, h2, h3, h4⟩

theorem timer_tick_exact (d : ℚ) :
    Timer.tick ⟨0, d⟩ d = ⟨d, d⟩ := by
  simp [Timer.tick]

theorem timer_finished_exact (d : ℚ) :
    Timer.finished ⟨d, d⟩ = true := by
  simp [Timer.finished]

theorem timer_tick_saturated (d : ℚ) (hd : 0 ≤ d) :
    Timer.tick ⟨d, d⟩ d = ⟨d, d⟩ := by
  simp [Timer.tick]
  linarith

theorem tick_new_once3_one (atl x y z : ℕ) (d : ℚ) :
    (Animation.new atl [x, y, z] d AnimationType.Once).tick d =
      some (⟨1, atl, [x, y, z], ⟨0, d⟩, AnimationType.Once, false⟩, y) := by
  simp [Animation.new, Animation.tick, Animation.advance_frame,
    timer_tick_exact, timer_finished_exact, Timer.reset]

theorem tick_once3_two (atl x y z : ℕ) (d : ℚ) :
    (⟨1, atl, [x, y, z], ⟨0, d⟩, AnimationType.Once, false⟩ :
        Animation).tick d =
      some (⟨2, atl, [x, y, z], ⟨0, d⟩, AnimationType.Once, false⟩, z) := by
  simp [Animation.tick, Animation.advance_frame,
    timer_tick_exact, timer_finished_exact, Timer.reset]

theorem tick_once3_three (atl x y z : ℕ) (d : ℚ) :
    (⟨2, atl, [x, y, z], ⟨0, d⟩, AnimationType.Once, false⟩ :
        Animation).tick d =
      some (⟨2, atl, [x, y, z], ⟨d, d⟩, AnimationType.Once, true⟩, z) := by
  simp [Animation.tick, Animation.advance_frame,
    timer_tick_exact, timer_finished_exact, Timer.reset]

theorem ticks_stuck_replicate (atl x y z : ℕ) (d : ℚ) (hd : 0 ≤ d)
    (m : ℕ) :
    (⟨2, atl, [x, y, z], ⟨d, d⟩, AnimationType.Once, true⟩ :
        Animation).ticks (List.replicate m d) =
      some ⟨2, atl, [x, y, z], ⟨d, d⟩, AnimationType.Once, true⟩ := by
  induction m with
  | zero => simp [Animation.ticks]
  | succ m ih =>
    have h := tick_stuck3
      ⟨2, atl, [x, y, z], ⟨d, d⟩, AnimationType.Once, true⟩
      x y z rfl rfl rfl rfl d
    rw [show Timer.tick ⟨d, d⟩ d = ⟨d, d⟩ from timer_tick_saturated d hd]
      at h
    simp [List.replicate_succ, Animation.ticks, h, ih]

theorem tick_new_repeat2_cross (atl x y : ℕ) (d δ : ℚ) (h : d ≤ δ) :
    (Animation.new atl [x, y] d AnimationType.Repeat).tick δ =
      some (⟨1, atl, [x, y], ⟨0, d⟩, AnimationType.Repeat, false⟩, y) := by
  have ht : Timer.tick ⟨0, d⟩ δ = ⟨d, d⟩ := by
    simp [Timer.tick]
    linarith
  simp [Animation.new, Animation.tick, Animation.advance_frame, ht,
    timer_finished_exact, Timer.reset]

/-! Claim theorems. -/

/-- C3, counterexample: for the Once-kind instance with frames
`[5, 6, 7]` and per-frame duration `1`, two ticks of delta `1` give
cumulative elapsed time `2 = 2d`, each call crossing exactly one frame
boundary; the current frame is the last one (index 2), but the
completion flag is still `false`, contradicting the claim that
`completed == true` after cumulative elapsed `>= 2d`.  The flag is only
set by the boundary crossing after the last frame has been displayed for
a full period. -/
theorem c3_counterexample :
    ((Animation.new 0 [5, 6, 7] 1 AnimationType.Once).ticks
        [1, 1]).map (fun a => (a.finished, a.index)) =
      some (false, 2) := by
  norm_num [Animation.ticks, Animation.tick, Animation.advance_frame,
    Animation.new, Timer.tick, Timer.finished, Timer.reset]
  decide

/-- C3, amended: for every Once-kind instance with frames `[x, y, z]`
and per-frame duration `d > 0`, after `n >= 3` tick calls of delta `d`
(each crossing exactly one frame boundary, cumulative elapsed `>= 3d`),
the completion flag is `true` and the current frame index is the last
one; every further tick call (any deltas) still returns `z` and keeps
the completion flag `true`.  (After `2d`, i.e. two crossings, the
returned frame is already `z` but the flag is still `false`.) -/
theorem c3_once_completes_after_three_crossings (atl x y z : ℕ) (d : ℚ)
    (hd : 0 < d) (n : ℕ) (hn : 3 ≤ n) :
    ∃ a', (Animation.new atl [x, y, z] d AnimationType.Once).ticks
        (List.replicate n d) = some a' ∧
      a'.finished = true ∧ a'.index = 2 ∧ a'.frames = [x, y, z] ∧
      ∀ ds : List ℚ, ∃ a'', a'.ticksWith ds =
          some (a'', List.replicate ds.length z) ∧
        a''.finished = true := by
  obtain ⟨m, rfl⟩ : ∃ m, n = 3 + m := ⟨n - 3, by omega⟩
  refine ⟨⟨2, atl, [x, y, z], ⟨d, d⟩, AnimationType.Once, true⟩, ?_, rfl,
    rfl, rfl, ?_⟩
  · have hsplit : List.replicate (3 + m) d =
        d :: d :: d :: List.replicate m d := by
      rw [List.replicate_add]
      rfl
    rw [hsplit]
    simp only [Animation.ticks, tick_new_once3_one, tick_once3_two,
      tick_once3_three, Option.some_bind]
    exact ticks_stuck_replicate atl x y z d hd.le m
  · intro ds
    obtain ⟨a'', h, _, _, _, hfin⟩ := ticksWith_stuck3 ds
      ⟨2, atl, [x, y, z], ⟨d, d⟩, AnimationType.Once, true⟩ x y z
      rfl rfl rfl rfl
    exact ⟨a'', h, hfin⟩

/-- C3, witness for the amended theorem at frames `[5, 6, 7]`, duration
`1`, three ticks. -/
theorem c3_witness :
    ∃ a', (Animation.new 0 [5, 6, 7] 1 AnimationType.Once).ticks
        (List.replicate 3 1) = some a' ∧
      a'.finished = true ∧ a'.index = 2 ∧ a'.frames = [5, 6, 7] ∧
      ∀ ds : List ℚ, ∃ a'', a'.ticksWith ds =
          some (a'', List.replicate ds.length 7) ∧
        a''.finished = true :=
  c3_once_completes_after_three_crossings 0 5 6 7 1 (by norm_num) 3
    (by norm_num)

/-- C4: the claim says an empty frame sequence is rejected at
construction/registration with an `InvalidAnimation` error and is never
stored.  The code has no such guard: `Animation::new` accepts the empty
frame sequence and `AnimationResource::insert` stores it, as this
evaluation of the embedded code shows (the spec itself notes the check
is missing from the source and mandates it, so the code, not the claim,
is at fault). -/
theorem c4_empty_definition_accepted_and_stored :
    (AnimationResource.new.insert "explosion"
        (Animation.new 0 [] 1 AnimationType.Once)).get "explosion" =
      some (Animation.new 0 [] 1 AnimationType.Once) := rfl

/-- C5: for every animation instance built (by `Animation::new`) from a
non-empty frame sequence and every sequence of non-negative
`delta_seconds` values, `tick` never panics, and after every call the
current index satisfies `0 <= index < frames.length`. -/
theorem c5_index_always_in_bounds (atl : ℕ) (frames : List ℕ) (ft : ℚ)
    (ty : AnimationType) (ds : List ℚ) (hne : frames ≠ [])
    (hds : ∀ d ∈ ds, 0 ≤ d) :
    ∃ a', (Animation.new atl frames ft ty).ticks ds = some a' ∧
      0 ≤ a'.index ∧ a'.index < a'.frames.length := by
  obtain ⟨a', h, hi, _, _, _⟩ :=
    ticks_inv ds (Animation.new atl frames ft ty)
      (show 0 < frames.length from List.length_pos.mpr hne)
  exact ⟨a', h, Nat.zero_le _, hi⟩

/-- C5, witness: two-frame Repeat instance ticked three times. -/
theorem c5_witness :
    ∃ a', (Animation.new 0 [4, 5] 1 AnimationType.Repeat).ticks
        [1, 1, 1] = some a' ∧ 0 ≤ a'.index ∧
      a'.index < a'.frames.length :=
  c5_index_always_in_bounds 0 [4, 5] 1 AnimationType.Repeat [1, 1, 1]
    (by decide) (by norm_num)

/-- C6: a single `tick` call advances the frame index by at most one
position, even when `delta_seconds` exceeds the per-frame duration
(exactly one boundary crossing is handled per call), and whenever the
index does advance the elapsed-time accumulator is reset to `0`
(discarding overshoot) rather than to `accumulator - duration`. -/
theorem c6_one_advance_per_tick (a : Animation) (δ : ℚ) (a' : Animation)
    (f : ℕ) (h : a.tick δ = some (a', f)) :
    a'.index ≤ a.index + 1 ∧
      (a'.index = a.index ∨
        (a'.index = (a.index + 1) % a.frames.length ∧
          a'.timer.elapsed = 0)) := by
  obtain ⟨_, _, _, hcase, hle⟩ := tick_fields a δ a' f h
  exact ⟨hle, hcase⟩

/-- C6, witness: a fresh two-frame Repeat instance ticked once with
delta `2`, twice its per-frame duration `1`: it advances exactly one
frame and the accumulator is reset to `0`. -/
theorem c6_witness :
    (⟨1, 0, [3, 4], ⟨0, 1⟩, AnimationType.Repeat, false⟩ :
        Animation).index ≤
      (Animation.new 0 [3, 4] 1 AnimationType.Repeat).index + 1 ∧
      ((⟨1, 0, [3, 4], ⟨0, 1⟩, AnimationType.Repeat, false⟩ :
          Animation).index =
        (Animation.new 0 [3, 4] 1 AnimationType.Repeat).index ∨
        ((⟨1, 0, [3, 4], ⟨0, 1⟩, AnimationType.Repeat, false⟩ :
            Animation).index =
          ((Animation.new 0 [3, 4] 1 AnimationType.Repeat).index + 1) %
            (Animation.new 0 [3, 4] 1
              AnimationType.Repeat).frames.length ∧
          (⟨1, 0, [3, 4], ⟨0, 1⟩, AnimationType.Repeat, false⟩ :
              Animation).timer.elapsed = 0)) :=
  c6_one_advance_per_tick (Animation.new 0 [3, 4] 1 AnimationType.Repeat)
    2 ⟨1, 0, [3, 4], ⟨0, 1⟩, AnimationType.Repeat, false⟩ 4
    (by norm_num [Animation.tick, Animation.advance_frame, Animation.new,
      Timer.tick, Timer.finished, Timer.reset])

/-- C7: a Repeat-kind instance never sets its completion flag: after any
sequence of tick calls that did not panic, `finished` is still
`false`. -/
theorem c7_repeat_never_completes (atl : ℕ) (frames : List ℕ) (ft : ℚ)
    (ds : List ℚ) (a' : Animation)
    (h : (Animation.new atl frames ft AnimationType.Repeat).ticks ds =
      some a') : a'.finished = false :=
  (ticks_repeat_fin ds
    (Animation.new atl frames ft AnimationType.Repeat) a' rfl h).2

/-- C7, witness: a two-frame Repeat instance after one
boundary-crossing tick of delta `2`. -/
theorem c7_witness :
    (⟨1, 0, [4, 5], ⟨0, 1⟩, AnimationType.Repeat, false⟩ :
        Animation).finished = false :=
  c7_repeat_never_completes 0 [4, 5] 1 [2]
    ⟨1, 0, [4, 5], ⟨0, 1⟩, AnimationType.Repeat, false⟩
    (by
      have h := tick_new_repeat2_cross 0 4 5 1 2 (by norm_num)
      simp [Animation.ticks, h])

/-- C9: on an instance whose frame sequence is empty every `tick` call
panics (the final `frames[index]` indexing is always out of bounds, and
when a boundary is crossed the non-repeating `frames.len() - 1`
underflows and the Repeat `% 0` divides by zero), while on an instance
freshly built from a non-empty sequence `tick` succeeds: the embedded
`tick` is total only under the non-empty-frames precondition. -/
theorem c9_tick_total_iff_frames_nonempty :
    (∀ (a : Animation) (δ : ℚ), a.frames = [] → a.tick δ = none) ∧
      ∀ (atl : ℕ) (frames : List ℕ) (ft : ℚ) (ty : AnimationType)
        (δ : ℚ), frames ≠ [] →
        ((Animation.new atl frames ft ty).tick δ).isSome = true := by
  refine ⟨fun a δ h => tick_none_of_empty a h δ, ?_⟩
  intro atl frames ft ty δ hne
  obtain ⟨a', f, h, _, _, _, _⟩ :=
    tick_some (Animation.new atl frames ft ty) δ
      (show 0 < frames.length from List.length_pos.mpr hne)
  rw [h]
  rfl

/-- C9, witness: an empty-frames Despawn instance panics on a tick; a
one-frame Despawn instance ticks successfully. -/
theorem c9_witness :
    ((⟨0, 0, [], ⟨0, 1⟩, AnimationType.Despawn, false⟩ :
        Animation).tick 1 = none) ∧
      ((Animation.new 0 [8] 1 AnimationType.Despawn).tick 1).isSome =
        true :=
  ⟨c9_tick_total_iff_frames_nonempty.1 _ 1 rfl,
    c9_tick_total_iff_frames_nonempty.2 0 [8] 1 AnimationType.Despawn 1
      (by decide)⟩

/-- C1: the claim says that with nothing playing and `"x"` registered,
handling a `PlayMusic("x")` event spawns exactly one looping entity
tagged with the `NowPlaying` marker.  The code does not: `play_music`
reads the `PlaySFX` event queue (`EventReader<PlaySFX>`, the `name`
field of `PlayMusic` is never read), so a tick whose only sound event is
`PlayMusic("x")` spawns nothing even though `"x"` resolves, as this
evaluation of the embedded tick shows.  The claim matches the intent
(the otherwise-dead `name` field, and the spec), so the code is at
fault. -/
theorem c1_play_music_spawns_nothing :
    (SoundResource.new.insert "x" 1).get "x" = some 1 ∧
      stepBatch (SoundResource.new.insert "x" 1)
        { sfx := [], music := ["x"], stop := 0 }
        { nextId := 0, entities := [] } =
      some { nextId := 0, entities := [] } := by
  constructor <;> rfl

/-- C2: the claim says at most one entity ever holds the `NowPlaying`
marker in any reachable state.  The code violates it: in a tick whose
pending events are `PlaySFX("x")`, `PlaySFX("y")` and a `PlayMusic`
event (with `"x"`, `"y"` registered), `play_music` despawns at most one
old entity before its loop but then spawns one marked looping entity per
resolving `PlaySFX` event, ending with two `NowPlaying` entities — a
state in which the `single()` queries of `play_music`/`stop_music` would
then panic (see C10), so the code contradicts its own assumption and
the claim reflects the intent. -/
theorem c2_two_marked_entities_reachable :
    (runBatches ⟨[("x", 1), ("y", 2)]⟩ { nextId := 0, entities := [] }
        [{ sfx := ["x", "y"], music := ["m"], stop := 0 }]).map
      (fun w => w.playing.length) = some 2 := by
  decide

/-- C8: handling a tick whose only sound event is `PlayMusic("missing")`
(a name that does not resolve) while exactly one entity is playing
(marked `NowPlaying`, looping, with the handle registered under `"x"`)
despawns that entity, spawns nothing (the resulting world is exactly the
old one minus that entity, and no marked entity remains), and does not
panic. -/
theorem c8_missing_music_stops_and_spawns_nothing (res : SoundResource)
    (w : World) (e : AudioEntity) (hx : ℕ)
    (hxres : res.get "x" = some hx) (hsrc : e.source = hx)
    (hmode : e.mode = PlaybackMode.Loop)
    (hmiss : res.get "missing" = none)
    (hplay : w.playing = [e]) :
    stepBatch res { sfx := [], music := ["missing"], stop := 0 } w =
      some (w.despawn e.id) ∧ (w.despawn e.id).playing = [] := by
  constructor
  · simp [stepBatch, play_music, play_sfx, hplay, querySingle]
  · have huniq : ∀ x ∈ w.entities, x.nowPlaying = true → x = e := by
      intro x hxent hxp
      have hmem : x ∈ w.playing := by
        rw [World.playing]
        exact List.mem_filter.mpr ⟨hxent, hxp⟩
      rw [hplay] at hmem
      simpa using hmem
    rw [World.playing]
    refine List.filter_eq_nil_iff.mpr ?_
    intro x hxmem hxp
    have hxmem' : x ∈ w.entities.filter
        (fun q => decide (q.id ≠ e.id)) := hxmem
    obtain ⟨hxent, hxid⟩ := List.mem_filter.mp hxmem'
    obtain rfl := huniq x hxent hxp
    exact (of_decide_eq_true hxid) rfl

/-- C8, witness: a world with one looping marked entity playing handle
7 (registered under `"x"`), and a table in which `"missing"` does not
resolve. -/
theorem c8_witness :
    stepBatch (⟨[("x", 7)]⟩ : SoundResource)
        { sfx := [], music := ["missing"], stop := 0 }
        { nextId := 5, entities := [⟨3, 7, PlaybackMode.Loop, true⟩] } =
      some (World.despawn
        { nextId := 5, entities := [⟨3, 7, PlaybackMode.Loop, true⟩] }
        3) ∧
      (World.despawn
        { nextId := 5, entities := [⟨3, 7, PlaybackMode.Loop, true⟩] }
        3).playing = [] :=
  c8_missing_music_stops_and_spawns_nothing ⟨[("x", 7)]⟩
    { nextId := 5, entities := [⟨3, 7, PlaybackMode.Loop, true⟩] }
    ⟨3, 7, PlaybackMode.Loop, true⟩ 7 rfl rfl rfl rfl rfl

/-- C10: the music-stopping branches of `play_music` and `stop_music`
use the panicking single-result query `single()`: whenever at most one
entity holds the `NowPlaying` marker both handlers succeed, and whenever
two or more entities hold it both handlers panic. -/
theorem c10_single_query_precondition (w : World) (res : SoundResource)
    (evs : List String) :
    (w.playing.length ≤ 1 →
      (stop_music w).isSome = true ∧
        (play_music res evs w).isSome = true) ∧
      (2 ≤ w.playing.length →
        stop_music w = none ∧ play_music res evs w = none) := by
  rcases hp : w.playing with _ | ⟨e, _ | ⟨e2, rest⟩⟩
  · refine ⟨fun _ => ⟨?_, ?_⟩, fun h2 => ?_⟩
    · simp [stop_music, hp]
    · simp [play_music, hp]
    · simp only [List.length_nil] at h2
      omega
  · refine ⟨fun _ => ⟨?_, ?_⟩, fun h2 => ?_⟩
    · simp [stop_music, hp, querySingle]
    · simp [play_music, hp, querySingle]
    · simp only [List.length_cons, List.length_nil] at h2
      omega
  · refine ⟨fun h1 => ?_, fun _ => ⟨?_, ?_⟩⟩
    · simp only [List.length_cons] at h1
      omega
    · simp [stop_music, hp, querySingle]
    · simp [play_music, hp, querySingle]

/-- C10, witness: both handlers succeed on an empty world, and both
panic on a world with two `NowPlaying` entities. -/
theorem c10_witness :
    ((stop_music { nextId := 0, entities := [] }).isSome = true ∧
      (play_music SoundResource.new []
        { nextId := 0, entities := [] }).isSome = true) ∧
      (stop_music { nextId := 2, entities :=
          [⟨0, 1, PlaybackMode.Loop, true⟩,
            ⟨1, 2, PlaybackMode.Loop, true⟩] } = none ∧
        play_music SoundResource.new []
          { nextId := 2, entities :=
            [⟨0, 1, PlaybackMode.Loop, true⟩,
              ⟨1, 2, PlaybackMode.Loop, true⟩] } = none) :=
  ⟨(c10_single_query_precondition { nextId := 0, entities := [] }
      SoundResource.new []).1 (by decide),
    (c10_single_query_precondition { nextId := 2, entities :=
        [⟨0, 1, PlaybackMode.Loop, true⟩,
          ⟨1, 2, PlaybackMode.Loop, true⟩] }
      SoundResource.new []).2 (by decide)⟩

end GameDevJam
